import Mathlib

/-
Verification of the dual-path message delivery core of the webrtc-msg
repository.  Each Lean definition below is a shallow embedding of one
function of the JavaScript source (file and line references in the doc
comments).  External collaborators (Firebase store, WebCrypto, the
RTCPeerConnection primitive) are modelled at their interface exactly as
the code consumes them: decryption is an explicit function parameter
that may fail, store contents are explicit lists, time is an explicit
`now` parameter.
-/

namespace WebrtcMsg

/-! ## Message Delivery Coordinator (src/js/message-manager.js) -/

/-- Shape of an incoming chat message payload (direct channel or store),
fields as consumed by `MessageManager.handleIncomingMessage`. -/
structure MessageData where
  id : String
  sender : String
  data : String
  iv : String
  timestamp : Nat
  deriving DecidableEq, Repr

/-- Delivery path of an incoming message: the WebRTC data channel or the
Firebase store (the string literals `'webrtc'` / `'firebase'` in the source). -/
inductive Source where
  | webrtc
  | firebase
  deriving DecidableEq, Repr

/-- The object passed to the UI callback `onMessageReceived`
(message-manager.js lines 114-122). -/
structure UIMessage where
  id : String
  text : String
  timestamp : Nat
  sender : String
  source : Source
  deriving DecidableEq, Repr

/-- Result of one `handleIncomingMessage` call: the updated
`deliveredMessages` set (modelled as a list), the UI callback invocation
if any, and the store record deleted via `markMessageAsDelivered` if any. -/
structure StepOut where
  delivered : List String
  ui : Option UIMessage
  deletedKey : Option String
  deriving DecidableEq, Repr

/-- MessageManager.handleIncomingMessage (message-manager.js lines 90-134).
`decrypt` stands for `crypto.decryptMessage` applied to `(data, iv)`;
`none` models a decryption error (the thrown exception lands in the
surrounding catch, which only logs).  Steps, in source order: skip if the
id is already in `deliveredMessages`; skip if the sender is the local
session id; decrypt (on failure the catch absorbs the error: no state
change, no UI callback, no deletion); add the id to `deliveredMessages`;
invoke the UI callback; if the source is the store path, delete the
stored record. -/
def handleIncomingMessage (decrypt : String → String → Option String)
    (sessionId : String) (delivered : List String)
    (m : MessageData) (src : Source) : StepOut :=
  if m.id ∈ delivered then ⟨delivered, none, none⟩
  else if m.sender = sessionId then ⟨delivered, none, none⟩
  else
    match decrypt m.data m.iv with
    | none => ⟨delivered, none, none⟩
    | some text =>
        ⟨m.id :: delivered,
         some ⟨m.id, text, m.timestamp, "remote", src⟩,
         if src = Source.firebase then some m.id else none⟩

/-- Processing of a sequence of incoming-message events (each event is a
payload plus the path it arrived on), threading the `deliveredMessages`
set through `handleIncomingMessage` and collecting the UI callback
invocations in order. -/
def runIncoming (decrypt : String → String → Option String)
    (sessionId : String) (delivered : List String) :
    List (MessageData × Source) → List String × List UIMessage
  | [] => (delivered, [])
  | (m, src) :: rest =>
      let o := handleIncomingMessage decrypt sessionId delivered m src
      let r := runIncoming decrypt sessionId o.delivered rest
      (r.1, o.ui.toList ++ r.2)

/-- Number of UI callback invocations carrying a given message id. -/
def countId (l : List UIMessage) (i : String) : Nat :=
  (l.filter (fun u => u.id == i)).length

lemma countId_nil (i : String) : countId [] i = 0 := rfl

lemma countId_append (a b : List UIMessage) (i : String) :
    countId (a ++ b) i = countId a i + countId b i := by
  simp [countId, List.filter_append]

lemma mem_delivered_of_step (decrypt : String → String → Option String)
    (sessionId : String) (delivered : List String)
    (m : MessageData) (src : Source) (x : String) (hx : x ∈ delivered) :
    x ∈ (handleIncomingMessage decrypt sessionId delivered m src).delivered := by
  by_cases h1 : m.id ∈ delivered
  · simpa [handleIncomingMessage, h1] using hx
  · by_cases h2 : m.sender = sessionId
    · simpa [handleIncomingMessage, h1, h2] using hx
    · cases h3 : decrypt m.data m.iv with
      | none => simpa [handleIncomingMessage, h1, h2, h3] using hx
      | some t =>
          simp [handleIncomingMessage, h1, h2, h3]
          exact Or.inr hx

lemma step_ui_eq (decrypt : String → String → Option String)
    (sessionId : String) (delivered : List String)
    (m : MessageData) (src : Source) (u : UIMessage)
    (hu : (handleIncomingMessage decrypt sessionId delivered m src).ui = some u) :
    u.id = m.id ∧ m.id ∉ delivered ∧
      (handleIncomingMessage decrypt sessionId delivered m src).delivered
        = m.id :: delivered := by
  by_cases h1 : m.id ∈ delivered
  · simp [handleIncomingMessage, h1] at hu
  · by_cases h2 : m.sender = sessionId
    · simp [handleIncomingMessage, h1, h2] at hu
    · cases h3 : decrypt m.data m.iv with
      | none => simp [handleIncomingMessage, h1, h2, h3] at hu
      | some t =>
          have hd : (handleIncomingMessage decrypt sessionId delivered m src).delivered
              = m.id :: delivered := by
            simp [handleIncomingMessage, h1, h2, h3]
          have hx : (handleIncomingMessage decrypt sessionId delivered m src).ui
              = some ⟨m.id, t, m.timestamp, "remote", src⟩ := by
            simp [handleIncomingMessage, h1, h2, h3]
          rw [hx] at hu
          have hu' : u = ⟨m.id, t, m.timestamp, "remote", src⟩ :=
            (Option.some.inj hu).symm
          exact ⟨by rw [hu'], h1, hd⟩

lemma run_countId_zero (decrypt : String → String → Option String)
    (sessionId : String) (i : String) :
    ∀ (evs : List (MessageData × Source)) (delivered : List String),
      i ∈ delivered →
      countId (runIncoming decrypt sessionId delivered evs).2 i = 0 := by
  intro evs
  induction evs with
  | nil => intro delivered _; simp [runIncoming, countId]
  | cons e rest ih =>
      intro delivered hi
      obtain ⟨m, src⟩ := e
      simp only [runIncoming]
      rw [countId_append]
      have hrest := ih _ (mem_delivered_of_step decrypt sessionId delivered m src i hi)
      rw [hrest]
      cases hu : (handleIncomingMessage decrypt sessionId delivered m src).ui with
      | none => simp [countId]
      | some u =>
          have h := step_ui_eq decrypt sessionId delivered m src u hu
          have hne : u.id ≠ i := by
            intro he
            have hmi : m.id = i := by rw [← h.1, he]
            exact h.2.1 (by rw [hmi]; exact hi)
          simp [countId, hne]

/-- C1: for every incoming chat message, if a message with the same id has
already been surfaced to the UI (on the direct channel, the store path,
or a store redelivery), `handleIncomingMessage` does not invoke the UI
callback again: over any sequence of incoming events processed from a
fresh coordinator state, the UI callback fires at most once per message
id, hence exactly once per surfaced id. -/
theorem ui_callback_fires_once_per_id (decrypt : String → String → Option String)
    (sessionId : String) (evs : List (MessageData × Source)) (i : String) :
    countId (runIncoming decrypt sessionId [] evs).2 i ≤ 1 := by
  suffices h : ∀ (evs : List (MessageData × Source)) (delivered : List String),
      countId (runIncoming decrypt sessionId delivered evs).2 i ≤ 1 from h evs []
  intro evs
  induction evs with
  | nil => intro delivered; simp [runIncoming, countId]
  | cons e rest ih =>
      intro delivered
      obtain ⟨m, src⟩ := e
      simp only [runIncoming]
      rw [countId_append]
      cases hu : (handleIncomingMessage decrypt sessionId delivered m src).ui with
      | none =>
          have h0 : countId (Option.toList (none : Option UIMessage)) i = 0 := rfl
          rw [h0, Nat.zero_add]
          exact ih _
      | some u =>
          have h := step_ui_eq decrypt sessionId delivered m src u hu
          by_cases hid : u.id = i
          · have hmem : i ∈ (handleIncomingMessage decrypt sessionId delivered m src).delivered := by
              rw [h.2.2, ← hid, h.1]
              exact List.mem_cons_self _ _
            have hz := run_countId_zero decrypt sessionId i rest _ hmem
            rw [hz]
            simp [countId, hid]
          · have h0 : countId (Option.toList (some u)) i = 0 := by
              simp [countId, hid]
            rw [h0, Nat.zero_add]
            exact ih _

/-! ## Stored chat records and the offline load / cleanup paths
(src/js/message-manager.js lines 139-157, 162-211, 246-279) -/

/-- A record in the `encrypted_messages/{roomId}/{messageId}` mailbox, the
shape written by `storeOfflineMessage` (key = the message id). -/
structure StoredMsg where
  key : String
  data : String
  iv : String
  timestamp : Nat
  sender : String
  ttl : Nat
  delivered : Bool
  deriving DecidableEq, Repr

/-- Insertion by ascending timestamp, used to model the
`messages.sort((a, b) => a.timestamp - b.timestamp)` step of
`loadOfflineMessages`. -/
def insertByTimestamp (r : StoredMsg) : List StoredMsg → List StoredMsg
  | [] => [r]
  | x :: xs =>
      if r.timestamp ≤ x.timestamp then r :: x :: xs
      else x :: insertByTimestamp r xs

/-- Sort of the filtered mailbox listing by ascending timestamp. -/
def sortByTimestamp (l : List StoredMsg) : List StoredMsg :=
  l.foldr insertByTimestamp []

lemma mem_insertByTimestamp (r x : StoredMsg) (l : List StoredMsg) :
    x ∈ insertByTimestamp r l ↔ x = r ∨ x ∈ l := by
  induction l with
  | nil => simp [insertByTimestamp]
  | cons y ys ih =>
      simp only [insertByTimestamp]
      split
      · simp [List.mem_cons]
      · simp only [List.mem_cons, ih]
        tauto

lemma mem_sortByTimestamp (x : StoredMsg) (l : List StoredMsg) :
    x ∈ sortByTimestamp l ↔ x ∈ l := by
  induction l with
  | nil => simp [sortByTimestamp]
  | cons y ys ih =>
      simp only [sortByTimestamp, List.foldr_cons] at ih ⊢
      simp [mem_insertByTimestamp, ih]

/-- MessageManager.loadOfflineMessages (message-manager.js lines 162-211):
scan the mailbox, skipping records that are expired (`ttl < now`) or
flagged delivered, and records whose sender is the local session; the
survivors are sorted by timestamp and each is fed to
`handleIncomingMessage` with source `firebase`.  This function returns
the list handed to the receive pipeline. -/
def loadOfflineMessages (now : Nat) (sessionId : String)
    (store : List StoredMsg) : List StoredMsg :=
  sortByTimestamp (store.filter
    (fun r => !(decide (r.ttl < now) || r.delivered) && r.sender != sessionId))

/-- MessageManager.cleanupExpiredMessages (message-manager.js lines
246-279): delete every record with `ttl < now`.  Returns the remaining
store and the list of deleted records. -/
def cleanupExpiredMessages (now : Nat) (store : List StoredMsg) :
    List StoredMsg × List StoredMsg :=
  (store.filter (fun r => !decide (r.ttl < now)),
   store.filter (fun r => decide (r.ttl < now)))

/-- C9: a stored chat record whose `ttl` is strictly below the current
time is never returned by the offline-message load path, and the
periodic cleanup sweep deletes it (it is in the deleted batch and not in
the remaining store), regardless of its `delivered` flag. -/
theorem expired_record_skipped_and_cleaned (now : Nat) (sessionId : String)
    (store : List StoredMsg) (r : StoredMsg)
    (hmem : r ∈ store) (hexp : r.ttl < now) :
    r ∉ loadOfflineMessages now sessionId store ∧
      r ∈ (cleanupExpiredMessages now store).2 ∧
      r ∉ (cleanupExpiredMessages now store).1 := by
  refine ⟨?_, ?_, ?_⟩
  · intro hin
    rw [loadOfflineMessages, mem_sortByTimestamp, List.mem_filter] at hin
    simp [hexp] at hin
  · show r ∈ store.filter (fun s => decide (s.ttl < now))
    rw [List.mem_filter]
    exact ⟨hmem, by simp [hexp]⟩
  · show r ∉ store.filter (fun s => !decide (s.ttl < now))
    rw [List.mem_filter]
    intro h
    simp [hexp] at h

/-- Witness for C9 at a concrete expired record. -/
theorem expired_record_skipped_and_cleaned_witness :
    let r : StoredMsg := ⟨"msg_1_a", "ct", "iv", 1, "peerB", 10, false⟩
    r ∉ loadOfflineMessages 11 "me" [r] ∧
      r ∈ (cleanupExpiredMessages 11 [r]).2 ∧
      r ∉ (cleanupExpiredMessages 11 [r]).1 :=
  expired_record_skipped_and_cleaned 11 "me" _ _ (List.mem_singleton.mpr rfl)
    (by decide)

/-! ## MessageManager.sendMessage (src/js/message-manager.js lines 37-85) -/

/-- Environment of one `sendMessage` call: the coordinator's
`isWebRTCConnected` flag, whether `webrtc.dataChannel` exists with
`readyState === 'open'`, whether `webrtc.sendMessage` (the direct send)
returns true, whether `crypto.encryptMessage` succeeds, and whether the
Firebase write in `storeOfflineMessage` succeeds (a rejected write
throws into `sendMessage`'s catch). -/
structure SendEnv where
  isWebRTCConnected : Bool
  dataChannelOpen : Bool
  webrtcSendOk : Bool
  encryptOk : Bool
  storeWriteOk : Bool
  deriving DecidableEq, Repr

/-- Observable outcome of `sendMessage`: its boolean return value,
whether the payload went out on the direct channel, and whether it was
written to the store. -/
structure SendResult where
  ok : Bool
  sentDirect : Bool
  storedInFirebase : Bool
  deriving DecidableEq, Repr

/-- Model of the JavaScript `String.prototype.trim`: strip leading and
trailing whitespace. -/
def jsTrim (s : String) : String :=
  String.mk (((s.data.dropWhile Char.isWhitespace).reverse.dropWhile
    Char.isWhitespace).reverse)

/-- MessageManager.sendMessage (message-manager.js lines 37-85): empty
(trimmed) plaintext returns false; encryption failure is caught and
returns false; if connected and the channel is open the direct send is
attempted (its result only sets the unused `delivered` flag); the store
write then runs unconditionally — if it succeeds the function returns
true, if it throws the catch returns false. -/
def sendMessage (env : SendEnv) (plaintext : String) : SendResult :=
  if jsTrim plaintext = "" then ⟨false, false, false⟩
  else if !env.encryptOk then ⟨false, false, false⟩
  else
    let dataChannelReady := env.dataChannelOpen
    let webrtcSent := env.isWebRTCConnected && dataChannelReady && env.webrtcSendOk
    if env.storeWriteOk then ⟨true, webrtcSent, true⟩
    else ⟨false, webrtcSent, false⟩

/-- C5 counterexample: with the direct channel open and the direct send
succeeding but the store write failing, `sendMessage` reports failure —
contradicting the claim that a direct-channel success yields success
regardless of the store write's outcome. -/
theorem sendMessage_direct_success_store_failure :
    (sendMessage ⟨true, true, true, true, false⟩ "hello").sentDirect = true ∧
      (sendMessage ⟨true, true, true, true, false⟩ "hello").ok = false := by
  constructor <;> decide

/-- C5 (amended): `sendMessage` returns success if and only if the
plaintext is nonempty after trimming, encryption succeeds and the store
write succeeds — the direct-channel outcome never affects the returned
value. -/
theorem sendMessage_ok_iff (env : SendEnv) (plaintext : String) :
    (sendMessage env plaintext).ok = true ↔
      (jsTrim plaintext ≠ "" ∧ env.encryptOk = true ∧ env.storeWriteOk = true) := by
  unfold sendMessage
  by_cases h1 : jsTrim plaintext = ""
  · simp [h1]
  · cases h2 : env.encryptOk <;> cases h3 : env.storeWriteOk <;> simp [h1, h2, h3]

/-! ## WebRTCSecrets (src/js/enhanced-crypto.js, second class) -/

/-- Payload of a `webrtc_secret` direct-channel message, as consumed by
`WebRTCSecrets.handleWebRTCSecret`. -/
structure SecretPayload where
  id : String
  sender : String
  data : String
  iv : String
  timestamp : Nat
  deriving DecidableEq, Repr

/-- The object passed to the `onSecretReceived` UI callback.  The
success path fills `senderAlias`/`senderId`; the failure path omits them
and sets `error := true` (enhanced-crypto.js lines 294-303 and 314-322). -/
structure SecretUIEvent where
  id : String
  text : String
  timestamp : Nat
  senderAlias : Option String
  senderId : Option String
  error : Bool
  deriving DecidableEq, Repr

/-- WebRTCSecrets.handleWebRTCSecret (enhanced-crypto.js lines 258-324).
`aliases` models `signaling.getParticipantAliases` (absent entries give
the literal `Unknown`); `now` is the clock read used by the catch
branch's `payload.timestamp || Date.now()` fallback (a zero timestamp is
falsy in JS, as is an empty id).  The id is added to
`secretMessageIds` before decryption, so it stays recorded even when
decryption fails; the catch branch surfaces a placeholder notice rather
than dropping the message. -/
def handleWebRTCSecret (decrypt : String → String → Option String)
    (sessionId : String) (aliases : String → Option String) (now : Nat)
    (ids : List String) (p : SecretPayload) :
    List String × Option SecretUIEvent :=
  if p.id ∈ ids then (ids, none)
  else if p.sender = sessionId then (ids, none)
  else
    let ids' := p.id :: ids
    match decrypt p.data p.iv with
    | some text =>
        let senderAlias := (aliases p.sender).getD "Unknown"
        (ids', some ⟨p.id, text, p.timestamp, some senderAlias, some p.sender, false⟩)
    | none =>
        (ids', some ⟨if p.id = "" then "unknown" else p.id,
                     "🔒 [Secret message - failed to decrypt]",
                     if p.timestamp = 0 then now else p.timestamp,
                     none, none, true⟩)

/-- C6 counterexample: on the regular chat path, a message whose
decryption fails is dropped with no UI notification at all —
`handleIncomingMessage` surfaces no placeholder, contradicting the claim
that every delivery path surfaces a visible failed-to-decrypt notice. -/
theorem chat_decrypt_failure_is_silent :
    handleIncomingMessage (fun _ _ => none) "me" []
        ⟨"msg_1_a", "peerB", "ct", "iv", 5⟩ Source.webrtc
      = ⟨[], none, none⟩ := rfl

/-- C6 (amended): a decryption failure never crashes the receive
pipeline, but only the secret-message path surfaces a visible
placeholder: `handleWebRTCSecret` emits the failed-to-decrypt notice,
while the regular chat path's `handleIncomingMessage` absorbs the
failure silently (no UI callback, state untouched), so subsequent
messages are processed exactly as if the failing one had not arrived. -/
theorem decrypt_failure_placeholder_only_secret_path
    (decrypt : String → String → Option String) (sessionId : String)
    (aliases : String → Option String) (now : Nat)
    (ids : List String) (p : SecretPayload)
    (delivered : List String) (m : MessageData) (src : Source)
    (evs : List (MessageData × Source))
    (hp : decrypt p.data p.iv = none) (hpid : p.id ∉ ids)
    (hpsend : p.sender ≠ sessionId)
    (hm : decrypt m.data m.iv = none) :
    (∃ e, (handleWebRTCSecret decrypt sessionId aliases now ids p).2 = some e ∧
        e.error = true ∧ e.text = "🔒 [Secret message - failed to decrypt]") ∧
      handleIncomingMessage decrypt sessionId delivered m src
        = ⟨delivered, none, none⟩ ∧
      runIncoming decrypt sessionId delivered ((m, src) :: evs)
        = runIncoming decrypt sessionId delivered evs := by
  have hstep : handleIncomingMessage decrypt sessionId delivered m src
      = ⟨delivered, none, none⟩ := by
    unfold handleIncomingMessage
    split
    · rfl
    · split
      · rfl
      · rw [hm]
  refine ⟨⟨⟨if p.id = "" then "unknown" else p.id,
      "🔒 [Secret message - failed to decrypt]",
      if p.timestamp = 0 then now else p.timestamp, none, none, true⟩,
      ?_, rfl, rfl⟩, hstep, ?_⟩
  · simp [handleWebRTCSecret, hpid, hpsend, hp]
  · simp only [runIncoming, hstep]
    cases hres : runIncoming decrypt sessionId delivered evs
    simp [Option.toList]

/-- Witness for C6 (amended) at concrete inputs with failing decryption. -/
theorem decrypt_failure_placeholder_only_secret_path_witness :
    (∃ e, (handleWebRTCSecret (fun _ _ => none) "me" (fun _ => none) 7 []
        ⟨"secret_1_a", "peerB", "ct", "iv", 5⟩).2 = some e ∧
        e.error = true ∧ e.text = "🔒 [Secret message - failed to decrypt]") ∧
      handleIncomingMessage (fun _ _ => none) "me" ["old"]
          ⟨"msg_1_a", "peerB", "ct", "iv", 5⟩ Source.firebase
        = ⟨["old"], none, none⟩ ∧
      runIncoming (fun _ _ => none) "me" ["old"]
          ((⟨"msg_1_a", "peerB", "ct", "iv", 5⟩, Source.firebase) :: [])
        = runIncoming (fun _ _ => none) "me" ["old"] [] :=
  decrypt_failure_placeholder_only_secret_path (fun _ _ => none) "me"
    (fun _ => none) 7 [] ⟨"secret_1_a", "peerB", "ct", "iv", 5⟩ ["old"]
    ⟨"msg_1_a", "peerB", "ct", "iv", 5⟩ Source.firebase [] rfl
    (by simp) (by decide) rfl

/-- C10: when decryption of an incoming chat message fails,
`handleIncomingMessage` leaves the coordinator state unchanged — the id
is not added to the delivered set and no store record is deleted — and a
later redelivery of the same id (now decryptable) is processed and
surfaced instead of being dropped as a duplicate. -/
theorem decrypt_failure_leaves_state_unchanged
    (decrypt decrypt2 : String → String → Option String) (sessionId : String)
    (delivered : List String) (m : MessageData) (src : Source) (t : String)
    (hfail : decrypt m.data m.iv = none) :
    handleIncomingMessage decrypt sessionId delivered m src
        = ⟨delivered, none, none⟩ ∧
      (m.id ∉ delivered → m.sender ≠ sessionId → decrypt2 m.data m.iv = some t →
        (handleIncomingMessage decrypt2 sessionId delivered m src).ui
          = some ⟨m.id, t, m.timestamp, "remote", src⟩) := by
  constructor
  · unfold handleIncomingMessage
    split
    · rfl
    · split
      · rfl
      · rw [hfail]
  · intro h1 h2 h3
    simp [handleIncomingMessage, h1, h2, h3]

/-- Witness for C10: a message whose first delivery fails to decrypt is
surfaced by a redelivery once decryption succeeds. -/
theorem decrypt_failure_leaves_state_unchanged_witness :
    handleIncomingMessage (fun _ _ => none) "me" []
        ⟨"msg_1_a", "peerB", "ct", "iv", 5⟩ Source.firebase
      = ⟨[], none, none⟩ ∧
      ((("msg_1_a" : String) ∉ ([] : List String)) → ("peerB" : String) ≠ "me" →
        (fun (_ _ : String) => some "hi") "ct" "iv" = some "hi" →
        (handleIncomingMessage (fun _ _ => some "hi") "me" []
            ⟨"msg_1_a", "peerB", "ct", "iv", 5⟩ Source.firebase).ui
          = some ⟨"msg_1_a", "hi", 5, "remote", Source.firebase⟩) :=
  decrypt_failure_leaves_state_unchanged (fun _ _ => none)
    (fun _ _ => some "hi") "me" [] ⟨"msg_1_a", "peerB", "ct", "iv", 5⟩
    Source.firebase "hi" rfl

/-! ## Signaling Coordinator (src/js/enhanced-signaling.js) -/

/-- An offer/answer record as written by `sendOffer`/`sendAnswer`
(enhanced-signaling.js lines 241-292): an sdp body, the writer's session
id and a write timestamp. -/
structure SdpRecord where
  sdpType : String
  sdpBody : String
  sender : String
  timestamp : Nat
  deriving DecidableEq, Repr

/-- The inner candidate object written by `sendIceCandidate`
(enhanced-signaling.js lines 297-313).  It carries the candidate fields
only — in particular no `timestamp` field. -/
structure CandidateFields where
  candidate : String
  sdpMid : String
  sdpMLineIndex : Nat
  deriving DecidableEq, Repr

/-- A candidate record in the store: the inner candidate object (absent
models a malformed record, for the `candidateData.candidate ||
candidateData` fallback), the writer's session id and a timestamp. -/
structure CandidateRecord where
  candidate : Option CandidateFields
  sender : String
  timestamp : Nat
  deriving DecidableEq, Repr

/-- Signaling-coordinator state: the local session id and the
`processedSignals` set of derived signal ids. -/
structure SigState where
  sessionId : String
  processedSignals : List String
  deriving DecidableEq, Repr

/-- EnhancedSignalingManager.handleSignalingMessage
(enhanced-signaling.js lines 223-236): derive
`signalId = type + "_" + (data.timestamp || Date.now())` — `dataTimestamp
= none` models a forwarded payload without a timestamp field, for which
the current clock `now` is used — skip if the id is already in
`processedSignals`, else record it and forward.  Returns the new state
and the derived id of the forwarded event (`none` = not forwarded). -/
def handleSignalingMessage (st : SigState) (type : String)
    (dataTimestamp : Option Nat) (now : Nat) : SigState × Option String :=
  if type ++ "_" ++ toString (dataTimestamp.getD now) ∈ st.processedSignals then
    (st, none)
  else
    ({ st with processedSignals :=
        (type ++ "_" ++ toString (dataTimestamp.getD now)) :: st.processedSignals },
     some (type ++ "_" ++ toString (dataTimestamp.getD now)))

/-- The offers `onChildAdded` listener (enhanced-signaling.js lines
164-170): drop records whose sender is the local session, else hand the
record (which has a `timestamp` field) to `handleSignalingMessage`. -/
def onOfferAdded (st : SigState) (r : SdpRecord) (now : Nat) :
    SigState × Option String :=
  if r.sender = st.sessionId then (st, none)
  else handleSignalingMessage st "offer" (some r.timestamp) now

/-- The answers `onChildAdded` listener (enhanced-signaling.js lines
173-179), same shape as the offers listener. -/
def onAnswerAdded (st : SigState) (r : SdpRecord) (now : Nat) :
    SigState × Option String :=
  if r.sender = st.sessionId then (st, none)
  else handleSignalingMessage st "answer" (some r.timestamp) now

/-- The candidates `onChildAdded` listener (enhanced-signaling.js lines
182-189): drop own records; otherwise forward
`candidateData.candidate || candidateData`.  When the inner candidate
object is present (the shape `sendIceCandidate` writes) the forwarded
payload has no `timestamp` field, so `handleSignalingMessage` falls back
to the arrival clock. -/
def onCandidateAdded (st : SigState) (r : CandidateRecord) (now : Nat) :
    SigState × Option String :=
  if r.sender = st.sessionId then (st, none)
  else
    match r.candidate with
    | some _ => handleSignalingMessage st "candidate" none now
    | none => handleSignalingMessage st "candidate" (some r.timestamp) now

/-- A store-delivery event observed by the signaling listeners: a record
plus the local clock value at delivery. -/
inductive SigEvent where
  | offer (r : SdpRecord) (now : Nat)
  | answer (r : SdpRecord) (now : Nat)
  | candidate (r : CandidateRecord) (now : Nat)
  deriving DecidableEq, Repr

/-- Dispatch of one store-delivery event to the matching listener. -/
def stepSignal (st : SigState) : SigEvent → SigState × Option String
  | SigEvent.offer r now => onOfferAdded st r now
  | SigEvent.answer r now => onAnswerAdded st r now
  | SigEvent.candidate r now => onCandidateAdded st r now

/-- Processing of a sequence of store-delivery events, collecting the
derived ids of the forwarded records in order. -/
def runSignals (st : SigState) : List SigEvent → SigState × List String
  | [] => (st, [])
  | e :: rest =>
      let o := stepSignal st e
      let r := runSignals o.1 rest
      (r.1, o.2.toList ++ r.2)

lemma handleSignalingMessage_mem (st : SigState) (type : String)
    (ts : Option Nat) (now : Nat) (x : String)
    (hx : x ∈ st.processedSignals) :
    x ∈ (handleSignalingMessage st type ts now).1.processedSignals := by
  unfold handleSignalingMessage
  split
  · exact hx
  · exact List.mem_cons_of_mem _ hx

lemma stepSignal_mem (st : SigState) (e : SigEvent) (x : String)
    (hx : x ∈ st.processedSignals) :
    x ∈ (stepSignal st e).1.processedSignals := by
  cases e with
  | offer r now =>
      simp only [stepSignal, onOfferAdded]
      split
      · exact hx
      · exact handleSignalingMessage_mem _ _ _ _ _ hx
  | answer r now =>
      simp only [stepSignal, onAnswerAdded]
      split
      · exact hx
      · exact handleSignalingMessage_mem _ _ _ _ _ hx
  | candidate r now =>
      simp only [stepSignal, onCandidateAdded]
      split
      · exact hx
      · cases r.candidate <;> exact handleSignalingMessage_mem _ _ _ _ _ hx

lemma stepSignal_forwarded (st : SigState) (e : SigEvent) (i : String)
    (hh : (stepSignal st e).2 = some i) :
    i ∉ st.processedSignals ∧ i ∈ (stepSignal st e).1.processedSignals := by
  have key : ∀ (type : String) (ts : Option Nat) (now : Nat),
      (handleSignalingMessage st type ts now).2 = some i →
      i ∉ st.processedSignals ∧
        i ∈ (handleSignalingMessage st type ts now).1.processedSignals := by
    intro type ts now h
    unfold handleSignalingMessage at h ⊢
    split at h
    · simp at h
    · next hni =>
      simp only [Option.some.injEq] at h
      subst h
      refine ⟨hni, ?_⟩
      simp [hni]
  cases e with
  | offer r now =>
      simp only [stepSignal, onOfferAdded] at hh ⊢
      split at hh
      · simp at hh
      · next hs => simpa [hs] using key _ _ _ hh
  | answer r now =>
      simp only [stepSignal, onAnswerAdded] at hh ⊢
      split at hh
      · simp at hh
      · next hs => simpa [hs] using key _ _ _ hh
  | candidate r now =>
      simp only [stepSignal, onCandidateAdded] at hh ⊢
      split at hh
      · simp at hh
      · next hs =>
        cases hc : r.candidate with
        | some c =>
            rw [hc] at hh
            simpa [hs, hc] using key _ _ _ hh
        | none =>
            rw [hc] at hh
            simpa [hs, hc] using key _ _ _ hh

/-- Count of occurrences of a signal id among the forwarded ids. -/
def countSignal (l : List String) (i : String) : Nat :=
  (l.filter (fun x => x == i)).length

lemma countSignal_append (a b : List String) (i : String) :
    countSignal (a ++ b) i = countSignal a i + countSignal b i := by
  simp [countSignal, List.filter_append]

lemma runSignals_countSignal_zero (i : String) :
    ∀ (evs : List SigEvent) (st : SigState), i ∈ st.processedSignals →
      countSignal (runSignals st evs).2 i = 0 := by
  intro evs
  induction evs with
  | nil => intro st _; simp [runSignals, countSignal]
  | cons e rest ih =>
      intro st hi
      simp only [runSignals]
      rw [countSignal_append]
      have hrest := ih _ (stepSignal_mem st e i hi)
      rw [hrest]
      cases hh : (stepSignal st e).2 with
      | none => simp [countSignal]
      | some j =>
          have h := stepSignal_forwarded st e j hh
          have hne : j ≠ i := fun he => h.1 (he ▸ hi)
          simp [countSignal, Option.toList, hne]

lemma runSignals_countSignal_le_one (i : String) :
    ∀ (evs : List SigEvent) (st : SigState),
      countSignal (runSignals st evs).2 i ≤ 1 := by
  intro evs
  induction evs with
  | nil => intro st; simp [runSignals, countSignal]
  | cons e rest ih =>
      intro st
      simp only [runSignals]
      rw [countSignal_append]
      cases hh : (stepSignal st e).2 with
      | none =>
          have h0 : countSignal (Option.toList (none : Option String)) i = 0 := rfl
          rw [h0, Nat.zero_add]
          exact ih _
      | some j =>
          have h := stepSignal_forwarded st e j hh
          by_cases hij : j = i
          · have hz := runSignals_countSignal_zero i rest _ (hij ▸ h.2)
            rw [hz]
            simp [countSignal, Option.toList, hij]
          · have h0 : countSignal (Option.toList (some j)) i = 0 := by
              simp [countSignal, Option.toList, hij]
            rw [h0, Nat.zero_add]
            exact ih _

/-- C2 counterexample: the forwarded payload of a candidate record is the
inner candidate object, which carries no timestamp, so its derived id
falls back to the arrival clock — the very same candidate record
delivered twice, at clock 0 and clock 1, is forwarded both times instead
of the repeat being discarded. -/
theorem candidate_redelivery_not_discarded :
    let st : SigState := ⟨"peerA", []⟩
    let rec0 : CandidateRecord := ⟨some ⟨"candidate:1", "0", 0⟩, "peerB", 1111⟩
    (onCandidateAdded st rec0 0).2 = some "candidate_0" ∧
      (onCandidateAdded (onCandidateAdded st rec0 0).1 rec0 1).2
        = some "candidate_1" := by
  constructor <;> decide

/-- C2 (amended): the coordinator never forwards a record whose sender is
the local session id; over any event sequence each derived signal id is
forwarded at most once; and a repeated delivery of the same offer or
answer record is discarded (their derived id is type + record
timestamp).  For candidate records the forwarded payload lacks the
timestamp field, so the derived id falls back to the arrival clock and a
redelivery at a different clock value is forwarded again. -/
theorem signaling_dedup_and_self_suppression (st : SigState)
    (r : SdpRecord) (c : CandidateRecord) (now now' : Nat)
    (evs : List SigEvent) (i : String) :
    (r.sender = st.sessionId →
      onOfferAdded st r now = (st, none) ∧ onAnswerAdded st r now = (st, none)) ∧
    (c.sender = st.sessionId → onCandidateAdded st c now = (st, none)) ∧
    (r.sender ≠ st.sessionId →
      (onOfferAdded (onOfferAdded st r now).1 r now').2 = none ∧
      (onAnswerAdded (onAnswerAdded st r now).1 r now').2 = none) ∧
    countSignal (runSignals st evs).2 i ≤ 1 := by
  refine ⟨?_, ?_, ?_, runSignals_countSignal_le_one i evs st⟩
  · intro h
    constructor <;> simp [onOfferAdded, onAnswerAdded, h]
  · intro h
    simp [onCandidateAdded, h]
  · intro h
    have key : ∀ (type : String),
        (handleSignalingMessage (handleSignalingMessage st type
            (some r.timestamp) now).1 type (some r.timestamp) now').2 = none := by
      intro type
      by_cases hmem : type ++ "_" ++ toString r.timestamp ∈ st.processedSignals
      · simp [handleSignalingMessage, hmem]
      · simp [handleSignalingMessage, hmem]
    have hs : ∀ (type : String),
        (handleSignalingMessage st type (some r.timestamp) now).1.sessionId
          = st.sessionId := by
      intro type
      by_cases hmem : type ++ "_" ++ toString r.timestamp ∈ st.processedSignals <;>
        simp [handleSignalingMessage, hmem]
    constructor
    · simp only [onOfferAdded, if_neg h]
      rw [hs "offer", if_neg h]
      exact key "offer"
    · simp only [onAnswerAdded, if_neg h]
      rw [hs "answer", if_neg h]
      exact key "answer"

/-- Witness for C2 (amended) at concrete records. -/
theorem signaling_dedup_and_self_suppression_witness :
    (onOfferAdded ⟨"peerA", []⟩ ⟨"offer", "sdp", "peerA", 7⟩ 0
        = (⟨"peerA", []⟩, none)) ∧
      (onCandidateAdded ⟨"peerA", []⟩ ⟨some ⟨"candidate:1", "0", 0⟩, "peerA", 7⟩ 0
        = (⟨"peerA", []⟩, none)) ∧
      (onOfferAdded (onOfferAdded ⟨"peerA", []⟩ ⟨"offer", "sdp", "peerB", 7⟩ 0).1
        ⟨"offer", "sdp", "peerB", 7⟩ 1).2 = none := by
  have h := signaling_dedup_and_self_suppression ⟨"peerA", []⟩
    ⟨"offer", "sdp", "peerB", 7⟩ ⟨some ⟨"candidate:1", "0", 0⟩, "peerA", 7⟩ 0 1 [] "x"
  have hself := signaling_dedup_and_self_suppression ⟨"peerA", []⟩
    ⟨"offer", "sdp", "peerA", 7⟩ ⟨some ⟨"candidate:1", "0", 0⟩, "peerA", 7⟩ 0 1 [] "x"
  exact ⟨(hself.1 rfl).1, hself.2.1 rfl, (h.2.2.1 (by decide)).1⟩

/-! ## Room membership and the join flow
(src/js/enhanced-signaling.js lines 80-127 and 334-364,
src/js/enhanced-app.js lines 291-315) -/

/-- A participant record under `rooms/{roomId}/participants/{sessionId}`.
`joined` and `lastSeen` use 0 for an absent field (absent and 0 are both
falsy in the JavaScript liveness checks). -/
structure Participant where
  joined : Nat
  lastSeen : Nat
  active : Bool
  aliasName : String
  sessionId : String
  deriving DecidableEq, Repr

/-- The 2-minute liveness window of `checkActiveParticipants`. -/
def activeTimeout : Nat := 2 * 60 * 1000

/-- Liveness test of one participant
(enhanced-signaling.js lines 348-355): active with a fresh `lastSeen`,
or — failing that — active with a fresh `joined` (recently joined, no
heartbeat yet). -/
def isActiveParticipant (now : Nat) (p : Participant) : Bool :=
  if p.active ∧ p.lastSeen ≠ 0 ∧ now - p.lastSeen < activeTimeout then true
  else if p.active ∧ p.joined ≠ 0 ∧ now - p.joined < activeTimeout then true
  else false

/-- Room metadata plus its participant map (keyed by session id).
Numeric fields use 0 for absent. -/
structure RoomRecord where
  participants : List (String × Participant)
  created : Nat
  lastActivity : Nat
  messageCount : Nat
  maxParticipants : Nat
  deriving DecidableEq, Repr

/-- EnhancedSignalingManager.checkActiveParticipants
(enhanced-signaling.js lines 334-364): number of active participants of
the room (0 when the room record is absent). -/
def checkActiveParticipants (now : Nat) (room : Option RoomRecord) : Nat :=
  match room with
  | none => 0
  | some r => (r.participants.map Prod.snd).countP (isActiveParticipant now)

/-- Keyed overwrite-or-append used to model the Firebase
`update(roomRef, { participants/sessionId: ... })` write. -/
def setParticipant : List (String × Participant) → String → Participant →
    List (String × Participant)
  | [], k, v => [(k, v)]
  | (k', v') :: rest, k, v =>
      if k' = k then (k, v) :: rest else (k', v') :: setParticipant rest k v

/-- Outcome of a join attempt: the room store afterwards and the thrown
error, if any (a throw happens before any write, leaving the store as it
was). -/
structure JoinResult where
  store : Option RoomRecord
  error : Option String
  deriving DecidableEq, Repr

/-- EnhancedSignalingManager.joinRoom (enhanced-signaling.js lines
80-127): a non-initiator first checks capacity — 3 or more active
participants throw `Room is full (maximum 3 participants)` before
anything is written; otherwise the joiner's participant record is
written (alias falling back to `Anonymous` for an absent or empty one,
both falsy), `lastActivity` is refreshed, and an initiator additionally
writes `created`, `messageCount` and `maxParticipants`. -/
def signalingJoinRoom (now : Nat) (room : Option RoomRecord)
    (sessionId : String) (isInitiator : Bool) (aliasName : Option String) :
    JoinResult :=
  if !isInitiator && decide (checkActiveParticipants now room ≥ 3) then
    ⟨room, some "Room is full (maximum 3 participants)"⟩
  else
    let aliasVal := match aliasName with
      | none => "Anonymous"
      | some a => if a = "" then "Anonymous" else a
    let p : Participant := ⟨now, now, true, aliasVal, sessionId⟩
    let base := room.getD ⟨[], 0, 0, 0, 0⟩
    let r1 := { base with
      participants := setParticipant base.participants sessionId p,
      lastActivity := now }
    let r2 := if isInitiator then
        { r1 with created := now, messageCount := 0, maxParticipants := 3 }
      else r1
    ⟨some r2, none⟩

/-- The join flow of EnhancedChatApp.joinRoom (enhanced-app.js lines
291-315): become initiator when the room record does not exist, or when
it exists with zero active participants (stale-room takeover); then call
the signaling manager's joinRoom. -/
def appJoinRoom (now : Nat) (room : Option RoomRecord) (sessionId : String)
    (aliasName : Option String) : JoinResult :=
  let roomExists := room.isSome
  let isInitiator :=
    if !roomExists then true
    else decide (checkActiveParticipants now room = 0)
  signalingJoinRoom now room sessionId isInitiator aliasName

/-- C8: a join attempt on a room that already holds 3 active participants
(active flag set within the 2-minute liveness window) fails with the
capacity error and performs no write: the room store is returned
unchanged. -/
theorem join_full_room_rejected_without_write (now : Nat) (room : RoomRecord)
    (sessionId : String) (aliasName : Option String)
    (hfull : checkActiveParticipants now (some room) ≥ 3) :
    appJoinRoom now (some room) sessionId aliasName
      = ⟨some room, some "Room is full (maximum 3 participants)"⟩ := by
  have hz : checkActiveParticipants now (some room) ≠ 0 := by omega
  unfold appJoinRoom
  simp only [Option.isSome_some, Bool.not_true, Bool.false_eq_true,
    if_false, hz]
  unfold signalingJoinRoom
  simp [hz, hfull]

/-- Witness for C8: a room with exactly 3 live participants rejects a
fourth joiner and is left untouched. -/
theorem join_full_room_rejected_without_write_witness :
    let p : String → Participant := fun s => ⟨1000, 1000, true, "user", s⟩
    let room : RoomRecord := ⟨[("a", p "a"), ("b", p "b"), ("c", p "c")], 900, 1000, 0, 3⟩
    appJoinRoom 1500 (some room) "d" (some "dave")
      = ⟨some room, some "Room is full (maximum 3 participants)"⟩ :=
  join_full_room_rejected_without_write 1500 _ "d" (some "dave") (by decide)

/-! ## Peer Transport Manager (src/js/webrtc.js)

The file holds three concatenated WebRTCManager variants.  The enhanced
first variant (lines 3-532) guards `handleAnswer` on the signaling state
and buffers early ICE candidates; the simple third variant (lines
690-831) applies an answer unconditionally.  The session-negotiation
primitive is modelled per the abstract contract it is used through:
`applyRemoteDescription` stores the description and moves the signaling
state (an answer ends negotiation, an offer awaits a local answer). -/

/-- RTCPeerConnection signaling states used by the manager. -/
inductive SigSt where
  | stable
  | haveLocalOffer
  | haveRemoteOffer
  deriving DecidableEq, Repr

/-- A session description `{type, sdp}`; an empty string models a
missing/empty (falsy) field. -/
structure SessionDesc where
  type : String
  sdp : String
  deriving DecidableEq, Repr

/-- An ICE candidate; `candidate` is the mandatory field the validation
checks (empty string models absent/empty, both falsy in JS). -/
structure IceCandidate where
  candidate : String
  sdpMid : String
  sdpMLineIndex : Nat
  deriving DecidableEq, Repr

/-- State of the underlying peer-connection object: signaling state, the
two descriptions, and the candidates handed to the negotiation
primitive, in order. -/
structure PeerConnection where
  signalingState : SigSt
  localDescription : Option SessionDesc
  remoteDescription : Option SessionDesc
  appliedCandidates : List IceCandidate
  deriving DecidableEq, Repr

/-- The WebRTCManager fields the handshake claims depend on: the
peer-connection object (absent before `createPeerConnection`) and the
`iceCandidateBuffer`. -/
structure Manager where
  peerConnection : Option PeerConnection
  iceCandidateBuffer : List IceCandidate
  deriving DecidableEq, Repr

/-- Abstract `setRemoteDescription` of the negotiation primitive: store
the description; receiving an answer completes negotiation (state
`stable`), receiving an offer awaits the local answer. -/
def applyRemoteDescription (pc : PeerConnection) (d : SessionDesc) :
    PeerConnection :=
  { pc with remoteDescription := some d,
            signalingState := if d.type = "answer" then SigSt.stable
              else SigSt.haveRemoteOffer }

/-- Draining of the candidate buffer into the peer connection, front
first (`processBufferedCandidates`, webrtc.js lines 344-360 shifts from
the head, preserving arrival order). -/
def drainBuffer (pc : PeerConnection) (buf : List IceCandidate) :
    PeerConnection :=
  { pc with appliedCandidates := pc.appliedCandidates ++ buf }

/-- WebRTCManager.addIceCandidate, first variant (webrtc.js lines
310-342): no-op without a peer connection; a candidate missing its
mandatory `candidate` field is dropped; with a remote description
already set the candidate is applied immediately; otherwise it is
appended to `iceCandidateBuffer`. -/
def addIceCandidate (m : Manager) (c : IceCandidate) : Manager :=
  match m.peerConnection with
  | none => m
  | some pc =>
      if c.candidate = "" then m
      else
        match pc.remoteDescription with
        | some _ =>
            { m with peerConnection := some ({ pc with
                appliedCandidates := pc.appliedCandidates ++ [c] }) }
        | none => { m with iceCandidateBuffer := m.iceCandidateBuffer ++ [c] }

/-- Sequential `addIceCandidate` calls. -/
def addIceCandidates (m : Manager) (cs : List IceCandidate) : Manager :=
  cs.foldl addIceCandidate m

/-- WebRTCManager.handleAnswer, first variant (webrtc.js lines 275-308):
no-op without a peer connection; if the signaling state is
`have-local-offer`, validate the answer (missing type or sdp throws),
apply it as the remote description and drain the buffered candidates;
in any other signaling state the answer is ignored and nothing changes. -/
def handleAnswer (m : Manager) (answer : SessionDesc) :
    Except String Manager :=
  match m.peerConnection with
  | none => Except.ok m
  | some pc =>
      if pc.signalingState = SigSt.haveLocalOffer then
        if answer.type = "" ∨ answer.sdp = "" then
          Except.error "Invalid answer format - missing type or sdp"
        else
          Except.ok ⟨some (drainBuffer (applyRemoteDescription pc answer)
            m.iceCandidateBuffer), []⟩
      else Except.ok m

/-- WebRTCManager.handleAnswer, third variant (webrtc.js lines 775-778):
no guard at all — the remote description is applied whatever the
signaling state. -/
def handleAnswerSimple (m : Manager) (answer : SessionDesc) : Manager :=
  match m.peerConnection with
  | none => m
  | some pc =>
      { m with peerConnection := some (applyRemoteDescription pc answer) }

/-- WebRTCManager.createAnswer, first variant (webrtc.js lines 242-273):
null without a peer connection; validate the offer (missing type or sdp
throws), apply it as the remote description, drain the buffered
candidates, then generate and set the local answer (`genAnswer` stands
for the primitive's `createAnswer` output). -/
def createAnswer (m : Manager) (offer : SessionDesc)
    (genAnswer : SessionDesc) : Except String (Manager × Option SessionDesc) :=
  match m.peerConnection with
  | none => Except.ok (m, none)
  | some pc =>
      if offer.type = "" ∨ offer.sdp = "" then
        Except.error "Invalid offer format - missing type or sdp"
      else
        let pc1 := drainBuffer (applyRemoteDescription pc offer)
          m.iceCandidateBuffer
        let pc2 := { pc1 with
          localDescription := some genAnswer,
          signalingState := SigSt.stable }
        Except.ok (⟨some pc2, []⟩, some genAnswer)

/-- C3 counterexample: the third-variant `handleAnswer` invoked in the
`stable` signaling state does not ignore the answer — it applies the
remote description, mutating the session. -/
theorem handleAnswerSimple_mutates_in_stable :
    let m : Manager := ⟨some ⟨SigSt.stable, none, none, []⟩, []⟩
    let a : SessionDesc := ⟨"answer", "v=0"⟩
    handleAnswerSimple m a ≠ m ∧
      (handleAnswerSimple m a).peerConnection
        = some ⟨SigSt.stable, none, some ⟨"answer", "v=0"⟩, []⟩ := by
  constructor <;> decide

/-- C3 (amended): in the enhanced (first-variant) WebRTCManager,
`handleAnswer` invoked while the signaling state is anything other than
`have-local-offer` ignores the answer — the manager is returned
unchanged, with no remote description applied; the simple third variant
instead applies the remote description unconditionally. -/
theorem handleAnswer_guarded_by_signaling_state (m : Manager)
    (pc : PeerConnection) (answer : SessionDesc)
    (hpc : m.peerConnection = some pc)
    (hst : pc.signalingState ≠ SigSt.haveLocalOffer) :
    handleAnswer m answer = Except.ok m ∧
      handleAnswerSimple m answer
        = { m with peerConnection := some (applyRemoteDescription pc answer) } := by
  constructor
  · unfold handleAnswer
    rw [hpc]
    simp [hst]
  · unfold handleAnswerSimple
    rw [hpc]

/-- Witness for C3 (amended) in the `stable` state. -/
theorem handleAnswer_guarded_by_signaling_state_witness :
    handleAnswer ⟨some ⟨SigSt.stable, none, none, []⟩, []⟩ ⟨"answer", "v=0"⟩
        = Except.ok ⟨some ⟨SigSt.stable, none, none, []⟩, []⟩ ∧
      handleAnswerSimple ⟨some ⟨SigSt.stable, none, none, []⟩, []⟩ ⟨"answer", "v=0"⟩
        = { (⟨some ⟨SigSt.stable, none, none, []⟩, []⟩ : Manager) with
            peerConnection := some (applyRemoteDescription
              ⟨SigSt.stable, none, none, []⟩ ⟨"answer", "v=0"⟩) } :=
  handleAnswer_guarded_by_signaling_state _ _ _ rfl (by decide)

lemma addIceCandidates_buffered (pc : PeerConnection)
    (hrd : pc.remoteDescription = none) :
    ∀ (cs : List IceCandidate) (m : Manager),
      m.peerConnection = some pc → (∀ c ∈ cs, c.candidate ≠ "") →
      addIceCandidates m cs
        = ⟨some pc, m.iceCandidateBuffer ++ cs⟩ := by
  intro cs
  induction cs with
  | nil =>
      intro m hpc _
      simp only [addIceCandidates, List.foldl_nil, List.append_nil]
      rw [← hpc]
  | cons c rest ih =>
      intro m hpc hcs
      have hc : c.candidate ≠ "" := hcs c (List.mem_cons_self _ _)
      have hstep : addIceCandidate m c = ⟨some pc, m.iceCandidateBuffer ++ [c]⟩ := by
        unfold addIceCandidate
        rw [hpc]
        simp [hc, hrd]
      simp only [addIceCandidates, List.foldl_cons] at ih ⊢
      rw [hstep, ih _ rfl (fun x hx => hcs x (List.mem_cons_of_mem _ hx))]
      simp

/-- C4: a well-formed ICE candidate arriving before any remote
description is neither dropped nor applied early — it is appended to the
per-peer buffer with the peer connection untouched — and when the remote
description is later applied, via `handleAnswer` (initiator side) or
`createAnswer` (responder side), every buffered candidate is handed to
the connection in its original arrival order, emptying the buffer. -/
theorem candidates_buffered_then_applied_in_order (m : Manager)
    (pc : PeerConnection) (cs : List IceCandidate)
    (answer offer genAnswer : SessionDesc)
    (hpc : m.peerConnection = some pc)
    (hrd : pc.remoteDescription = none)
    (hcs : ∀ c ∈ cs, c.candidate ≠ "") :
    addIceCandidates m cs = ⟨some pc, m.iceCandidateBuffer ++ cs⟩ ∧
      (pc.signalingState = SigSt.haveLocalOffer → answer.type ≠ "" →
        answer.sdp ≠ "" →
        handleAnswer (addIceCandidates m cs) answer
          = Except.ok ⟨some (drainBuffer (applyRemoteDescription pc answer)
              (m.iceCandidateBuffer ++ cs)), []⟩) ∧
      (offer.type ≠ "" → offer.sdp ≠ "" →
        createAnswer (addIceCandidates m cs) offer genAnswer
          = Except.ok (⟨some { drainBuffer (applyRemoteDescription pc offer)
                (m.iceCandidateBuffer ++ cs) with
                localDescription := some genAnswer,
                signalingState := SigSt.stable }, []⟩, some genAnswer)) := by
  have hadd := addIceCandidates_buffered pc hrd cs m hpc hcs
  refine ⟨hadd, ?_, ?_⟩
  · intro hst h1 h2
    rw [hadd]
    unfold handleAnswer
    simp [hst, h1, h2]
  · intro h1 h2
    rw [hadd]
    unfold createAnswer
    simp [h1, h2]

/-- Witness for C4: two candidates buffered before the remote description
and applied in arrival order by `handleAnswer`. -/
theorem candidates_buffered_then_applied_in_order_witness :
    let pc : PeerConnection := ⟨SigSt.haveLocalOffer, some ⟨"offer", "v=0"⟩, none, []⟩
    let m : Manager := ⟨some pc, []⟩
    let c1 : IceCandidate := ⟨"candidate:1", "0", 0⟩
    let c2 : IceCandidate := ⟨"candidate:2", "0", 0⟩
    addIceCandidates m [c1, c2] = ⟨some pc, [c1, c2]⟩ ∧
      (pc.signalingState = SigSt.haveLocalOffer → ("answer" : String) ≠ "" →
        ("v=0" : String) ≠ "" →
        handleAnswer (addIceCandidates m [c1, c2]) ⟨"answer", "v=0"⟩
          = Except.ok ⟨some (drainBuffer
              (applyRemoteDescription pc ⟨"answer", "v=0"⟩) [c1, c2]), []⟩) ∧
      (("offer" : String) ≠ "" → ("v=0" : String) ≠ "" →
        createAnswer (addIceCandidates m [c1, c2]) ⟨"offer", "v=0"⟩ ⟨"answer", "v=1"⟩
          = Except.ok (⟨some { drainBuffer
                (applyRemoteDescription pc ⟨"offer", "v=0"⟩) [c1, c2] with
                localDescription := some ⟨"answer", "v=1"⟩,
                signalingState := SigSt.stable }, []⟩, some ⟨"answer", "v=1"⟩)) :=
  candidates_buffered_then_applied_in_order _ _ [⟨"candidate:1", "0", 0⟩,
    ⟨"candidate:2", "0", 0⟩] ⟨"answer", "v=0"⟩ ⟨"offer", "v=0"⟩ ⟨"answer", "v=1"⟩
    rfl rfl (by decide)

/-! ## WebRTCSecrets.sendWebRTCSecret
(src/js/enhanced-crypto.js lines 224-253) -/

/-- Observable outcome of `sendWebRTCSecret`: the returned value or the
thrown error, the records written to the Rendezvous Store (the function
contains no store write at all, on any branch), and the payload sent
over the direct channel if any. -/
structure SecretSendOutcome where
  result : Except String Bool
  storeWrites : List StoredMsg
  sentPayload : Option SecretPayload
  deriving Repr

/-- WebRTCSecrets.sendWebRTCSecret (enhanced-crypto.js lines 224-253):
if the data channel is absent or not open, throw immediately — before
encryption, before any send, and with no store interaction; otherwise
encrypt (`encrypted` stands for `crypto.encryptMessage`, `none` = it
threw, rethrown by the catch), build the ephemeral payload
(`secretId`/`now`/`sessionId` fill the generated fields) and send it
over the direct channel; a false `webrtc.sendMessage` return is turned
into a thrown error.  No branch writes to the Rendezvous Store. -/
def sendWebRTCSecret (dataChannelOpen : Bool) (webrtcSendOk : Bool)
    (encrypted : Option (String × String)) (secretId : String) (now : Nat)
    (sessionId : String) : SecretSendOutcome :=
  if !dataChannelOpen then
    ⟨Except.error
      "WebRTC connection not ready - peer must be online for secret messages",
     [], none⟩
  else
    match encrypted with
    | none => ⟨Except.error "encryptMessage failed", [], none⟩
    | some enc =>
        let payload : SecretPayload := ⟨secretId, sessionId, enc.1, enc.2, now⟩
        if webrtcSendOk then ⟨Except.ok true, [], some payload⟩
        else ⟨Except.error "Failed to send secret message via WebRTC",
              [], some payload⟩

/-- C7: a secret/ephemeral send attempted while the direct channel is not
open throws immediately; nothing is sent and no record is ever written
to the Rendezvous Store (there is no store fallback — indeed no branch
of the function writes to the store). -/
theorem secret_send_fails_closed_channel_no_store
    (dataChannelOpen webrtcSendOk : Bool)
    (encrypted : Option (String × String))
    (secretId : String) (now : Nat) (sessionId : String)
    (hclosed : dataChannelOpen = false) :
    sendWebRTCSecret dataChannelOpen webrtcSendOk encrypted secretId now sessionId
        = ⟨Except.error
            "WebRTC connection not ready - peer must be online for secret messages",
           [], none⟩ ∧
      (∀ (open' sendOk : Bool) (e : Option (String × String)) (i : String)
        (t : Nat) (s : String),
        (sendWebRTCSecret open' sendOk e i t s).storeWrites = []) := by
  subst hclosed
  refine ⟨rfl, ?_⟩
  intro open' sendOk e i t s
  unfold sendWebRTCSecret
  cases open' with
  | false => rfl
  | true =>
      cases e with
      | none => rfl
      | some enc => cases sendOk <;> rfl

/-- Witness for C7 at a concrete closed-channel send attempt. -/
theorem secret_send_fails_closed_channel_no_store_witness :
    sendWebRTCSecret false true (some ("ct", "iv")) "secret_1_a" 5 "me"
        = ⟨Except.error
            "WebRTC connection not ready - peer must be online for secret messages",
           [], none⟩ :=
  (secret_send_fails_closed_channel_no_store false true (some ("ct", "iv"))
    "secret_1_a" 5 "me" rfl).1

end WebrtcMsg
